import Mathlib

/-!
Verification of the ga-ez-dash JavaScript library (configuration merging,
handler dispatch, deferred command queue, date defaulting, HTML escaping).
Each definition is a shallow embedding of a function from the repository
sources; the file names the source function next to each definition.
-/

set_option autoImplicit false
set_option linter.unnecessarySeqFocus false

namespace GaDash

mutual

/-- Model of the JavaScript values that the library manipulates.
Arrays and functions are objects in JavaScript, so property writes on them
stick: `vArr tag props` abstracts the element storage by `tag` (the
library only ever writes arrays over each other wholesale) and carries the
table `props` of properties written onto the array object; `vFunc id
props` likewise pairs an opaque function identity (whose return values an
oracle supplies where needed) with its property table.  (The special
`length` property of arrays and the non-writable `length`/`name` of
functions are not distinguished; no theorem below depends on them.)
Objects are ordered association lists (`JsFields`), matching JS
insertion-order enumeration of `for (var key in obj)`. -/
inductive JsValue where
  | vUndefined
  | vNull
  | vBool (b : Bool)
  | vNum (n : Int)
  | vStr (s : String)
  | vArr (tag : Nat) (props : JsFields)
  | vFunc (id : Nat) (props : JsFields)
  | vObj (fields : JsFields)

/-- Ordered field list of a JS object literal. -/
inductive JsFields where
  | nil
  | cons (key : String) (val : JsValue) (rest : JsFields)

end

end GaDash

namespace GaDash

/-- Reading a property: `obj[key]`; `none` models an absent key
(which JS reads as `undefined`). First matching key wins; JS objects
have unique keys, which theorems track with a `Nodup` hypothesis. -/
def getField : JsFields → String → Option JsValue
  | .nil, _ => none
  | .cons k v rest, key => if k = key then some v else getField rest key

/-- Property assignment `obj[key] = v` on a plain object: overwrites in
place when the key exists (JS keeps the original insertion position),
otherwise appends the new key at the end. -/
def setField : JsFields → String → JsValue → JsFields
  | .nil, key, v => .cons key v .nil
  | .cons k w rest, key, v =>
      if k = key then .cons k v rest else .cons k w (setField rest key v)

/-- The keys of an object, in enumeration order. -/
def keysOf : JsFields → List String
  | .nil => []
  | .cons k _ rest => k :: keysOf rest

/-- JavaScript truthiness of a value: `undefined`, `null`, `false`, `0`
and the empty string are falsy; every object, array and function is truthy. -/
def jsTruthy : JsValue → Bool
  | .vUndefined => false
  | .vNull => false
  | .vBool b => b
  | .vNum n => n != 0
  | .vStr s => s ≠ ""
  | .vArr _ _ => true
  | .vFunc _ _ => true
  | .vObj _ => true

/-- Embedding of `gadash.util.getType` (src/src/js/util.js): maps the
`Object.prototype.toString` class string to a type name; `undefined` and
`null` (and, in the older src/src/util.js version, functions) fall outside
the map and yield `undefined`, modelled as `none`.  Only the
`some "object"` and `some "array"` and `some "function"` results are ever
consulted by the embedded code. -/
def getType : JsValue → Option String
  | .vBool _ => some "boolean"
  | .vNum _ => some "number"
  | .vStr _ => some "string"
  | .vArr _ _ => some "array"
  | .vFunc _ _ => some "function"
  | .vObj _ => some "object"
  | .vUndefined => none
  | .vNull => none

/-- `to[key] || {}` : the value used as merge target by
`gadash.util.extend`; an absent or falsy existing value is replaced by a
fresh empty object. -/
def jsOrEmpty : Option JsValue → JsValue
  | some w => if jsTruthy w then w else .vObj .nil
  | none => .vObj .nil

mutual

/-- The recursive merge step `gadash.util.extend(from[key], to[key])` of
src/src/util.js for an object-typed `from[key]`.  When the target is a
plain object the two field lists merge.  Arrays and functions are objects
too, so the merge writes `from[key]`'s entries into their property tables
(expando properties stick).  Only when the target is a truthy primitive
are the property assignments inside `extend` silent no-ops in non-strict
JavaScript, leaving the target unchanged. -/
def extendVal : JsValue → JsValue → JsValue
  | .vObj ff, .vObj ft => .vObj (extend ff ft)
  | .vObj ff, .vArr tag props => .vArr tag (extend ff props)
  | .vObj ff, .vFunc i props => .vFunc i (extend ff props)
  | _, t => t

/-- Embedding of `gadash.util.extend(from, to)` (src/src/util.js lines
219-229): for each key of `from` in order, an object-typed value is merged
recursively into `to[key] || {}`, and any other value (scalar, array,
function, `null`, `undefined`) overwrites `to[key]`. -/
def extend : JsFields → JsFields → JsFields
  | .nil, t => t
  | .cons k v rest, t =>
      match v with
      | .vObj ff =>
          let merged := extendVal (.vObj ff) (jsOrEmpty (getField t k))
          extend rest (setField t k merged)
      | w => extend rest (setField t k w)

end

theorem getField_setField_self : ∀ (t : JsFields) (k : String) (v : JsValue),
    getField (setField t k v) k = some v
  | .nil, k, v => by simp [setField, getField]
  | .cons k' w rest, k, v => by
      by_cases h : k' = k <;>
        simp [setField, getField, h, getField_setField_self rest k v]

theorem getField_setField_ne : ∀ (t : JsFields) (k k' : String) (v : JsValue),
    k' ≠ k → getField (setField t k' v) k = getField t k
  | .nil, k, k', v, h => by simp [setField, getField, h]
  | .cons k'' w rest, k, k', v, h => by
      by_cases h2 : k'' = k'
      · subst h2
        simp [setField, getField, h]
      · simp [setField, getField, h2, getField_setField_ne rest k k' v h]

theorem extend_getField_not_mem : ∀ (f t : JsFields) (k : String),
    k ∉ keysOf f → getField (extend f t) k = getField t k
  | .nil, t, k, _ => rfl
  | .cons k' v rest, t, k, h => by
      simp [keysOf] at h
      cases v <;>
        simp [extend, extend_getField_not_mem rest _ k h.2,
          getField_setField_ne _ _ _ _ (Ne.symm h.1)]

/-- Characterisation of `gadash.util.extend` at a single key, assuming the
keys of `from` are unique (as they are for every JS object): an absent key
leaves the target untouched, a non-object value overwrites, and an object
value merges into `to[key] || {}` via `extendVal`. -/
theorem extend_getField : ∀ (f t : JsFields) (k : String),
    (keysOf f).Nodup →
    getField (extend f t) k =
      match getField f k with
      | none => getField t k
      | some (.vObj ff) => some (extendVal (.vObj ff) (jsOrEmpty (getField t k)))
      | some w => some w
  | .nil, t, k, _ => rfl
  | .cons k' v rest, t, k, h => by
      simp [keysOf] at h
      by_cases hk : k' = k
      · subst hk
        have hnm : k' ∉ keysOf rest := h.1
        cases v <;>
          simp [extend, getField, extend_getField_not_mem rest _ k' hnm,
            getField_setField_self]
      · cases v <;>
          simp [extend, getField, hk, extend_getField rest _ k h.2,
            getField_setField_ne _ _ _ _ hk]

/-- The object-typed JavaScript values: plain objects, arrays and
functions.  Property writes stick on all of them; only the remaining
(primitive) values ignore property writes in non-strict mode. -/
def isObjectLike : JsValue → Bool
  | .vObj _ => true
  | .vArr _ _ => true
  | .vFunc _ _ => true
  | _ => false

/-- C6 (amended): `gadash.util.extend(from, to)` deep-merges with the last
writer winning.  Every key of `from` whose value is not an object (scalars,
arrays, functions, `null`, `undefined`) overwrites `to[key]` wholesale;
every key of `from` whose value is an object is merged recursively into
`to[key]` when `to[key]` is itself a plain object, and into a freshly
created empty object when `to[key]` is absent or falsy; when `to[key]` is
an array or a function (objects in JavaScript, and truthy) the entries of
`from[key]` are written into its property table; only when `to[key]` is a
truthy primitive (a nonzero number, non-empty string or `true`) is the
recursive merge a silent no-op that leaves `to[key]` unchanged; and every
key of `to` that does not occur in `from` keeps its previous value. -/
theorem extend_deep_merge_spec (f t : JsFields) (k : String)
    (hnd : (keysOf f).Nodup) :
    (getField f k = none → getField (extend f t) k = getField t k) ∧
    (∀ v, getField f k = some v → getType v ≠ some "object" →
      getField (extend f t) k = some v) ∧
    (∀ ff, getField f k = some (.vObj ff) →
      (getField t k = none →
        getField (extend f t) k = some (.vObj (extend ff .nil))) ∧
      (∀ ft, getField t k = some (.vObj ft) →
        getField (extend f t) k = some (.vObj (extend ff ft))) ∧
      (∀ w, getField t k = some w → jsTruthy w = false →
        getField (extend f t) k = some (.vObj (extend ff .nil))) ∧
      (∀ tag props, getField t k = some (.vArr tag props) →
        getField (extend f t) k = some (.vArr tag (extend ff props))) ∧
      (∀ i props, getField t k = some (.vFunc i props) →
        getField (extend f t) k = some (.vFunc i (extend ff props))) ∧
      (∀ w, getField t k = some w → jsTruthy w = true →
        isObjectLike w = false → getField (extend f t) k = some w)) := by
  have h := extend_getField f t k hnd
  refine ⟨fun h0 => by rw [h, h0], fun v hv hvo => ?_, fun ff hff => ?_⟩
  · rw [h, hv]
    cases v <;> simp_all [getType]
  · have hm : getField (extend f t) k
        = some (extendVal (.vObj ff) (jsOrEmpty (getField t k))) := by
      rw [h, hff]
    refine ⟨fun h0 => ?_, fun ft h0 => ?_, fun w h0 hw => ?_,
      fun tag props h0 => ?_, fun i props h0 => ?_, fun w h0 hw hwo => ?_⟩
    · rw [hm, h0]; rfl
    · rw [hm, h0]; rfl
    · have hj : jsOrEmpty (some w) = JsValue.vObj .nil := by simp [jsOrEmpty, hw]
      rw [hm, h0, hj]; rfl
    · rw [hm, h0]; rfl
    · rw [hm, h0]; rfl
    · have hj : jsOrEmpty (some w) = w := by simp [jsOrEmpty, hw]
      rw [hm, h0, hj]
      cases w <;> simp_all [isObjectLike, extendVal]

/-- C6 counterexample: with `from = recObj a: recObj b: 1 end end` and
`to = recObj a: 1 end` (the target value `1` is a truthy non-object),
`extend` leaves `to` completely unchanged: the object `from.a` is not
merged into `to.a` in any form, contradicting the unconditional
"every key of from whose value is an object is merged recursively into
to[key]" reading of the claim. -/
theorem extend_counterexample :
    extend (.cons "a" (.vObj (.cons "b" (.vNum 1) .nil)) .nil)
        (.cons "a" (.vNum 1) .nil) = .cons "a" (.vNum 1) .nil ∧
    ∀ ff : JsFields,
      getField (extend (.cons "a" (.vObj (.cons "b" (.vNum 1) .nil)) .nil)
          (.cons "a" (.vNum 1) .nil)) "a" ≠ some (.vObj ff) := by
  refine ⟨rfl, fun ff h => ?_⟩
  have h2 : some (JsValue.vNum 1) = some (JsValue.vObj ff) := h
  simp at h2

/-- Witness for `extend_deep_merge_spec`: merging `recObj p: recObj q: 2
end end` into the empty object creates `p` as a fresh object holding the
recursive merge. -/
theorem extend_deep_merge_spec_witness :
    getField (extend (.cons "p" (.vObj (.cons "q" (.vNum 2) .nil)) .nil) .nil) "p"
      = some (.vObj (extend (.cons "q" (.vNum 2) .nil) .nil)) :=
  ((extend_deep_merge_spec (.cons "p" (.vObj (.cons "q" (.vNum 2) .nil)) .nil)
      .nil "p" (by decide)).2.2 (.cons "q" (.vNum 2) .nil) rfl).1 rfl

/-! ## Handler resolution (gadash.Query.prototype.executeHandlers_,
src/src/query.js and src/unnamed/part_001) -/

/-- `x !== false` is false exactly for the boolean literal `false`
(JavaScript strict equality). -/
def strictEqFalse : JsValue → Bool
  | .vBool false => true
  | _ => false

/-- The value a handler invocation returns: the oracle `ret` gives each
function id its return value; only function values are ever invoked. -/
def retOf (ret : Nat → JsValue) : JsValue → JsValue
  | .vFunc i _ => ret i
  | _ => .vUndefined

/-- Embedding of `gadash.Query.prototype.executeHandlers_`
(src/src/query.js lines 160-174, identical in
`gadash.GaQuery.prototype.executeHandlers_`, src/unnamed/part_001 lines
192-206): produces the list of (function value, argument) invocations, in
order.  A user-supplied function is invoked first; when its return value is
not strictly `false` and the default slot is truthy, the default is invoked
with the same argument; without a user function the default (when truthy)
is invoked alone. -/
def executeHandlersV1 (ret : Nat → JsValue) (config : JsFields)
    (userFunction defaultFunction : String) (args : JsValue) :
    List (JsValue × JsValue) :=
  let userFunc := (getField config userFunction).getD .vUndefined
  let defaultFunc := (getField config defaultFunction).getD .vUndefined
  if getType userFunc = some "function" then
    if !strictEqFalse (retOf ret userFunc) && jsTruthy defaultFunc then
      [(userFunc, args), (defaultFunc, args)]
    else [(userFunc, args)]
  else if jsTruthy defaultFunc then [(defaultFunc, args)] else []

/-- Embedding of `gadash.Query.prototype.executeHandlers`
(src/src/query.js lines 342-356).  This version's condition reads the
undeclared identifier `defaultfunc` (lower-case f) instead of the local
`defaultFunc`; in non-strict JavaScript, reading an undeclared identifier
throws a ReferenceError.  The result is the list of invocations actually
performed together with the error thrown, if any. -/
def executeHandlersV2 (ret : Nat → JsValue) (config : JsFields)
    (userFunction defaultFunction : String) (args : JsValue) :
    List (JsValue × JsValue) × Option String :=
  let userFunc := (getField config userFunction).getD .vUndefined
  let defaultFunc := (getField config defaultFunction).getD .vUndefined
  if getType userFunc = some "function" then
    if !strictEqFalse (retOf ret userFunc) then
      ([(userFunc, args)], some "ReferenceError: defaultfunc is not defined")
    else ([(userFunc, args)], none)
  else if jsTruthy defaultFunc then ([(defaultFunc, args)], none) else ([], none)

/-- Modelled from the spec sentence "if a user-supplied function exists and
does not explicitly return false, then also invoke the corresponding
default function": the handler-resolution rule in the claim's own words. -/
def handlerResolutionRule (ret : Nat → JsValue) (config : JsFields)
    (userFunction defaultFunction : String) (args : JsValue) :
    List (JsValue × JsValue) :=
  let defaultCall : List (JsValue × JsValue) :=
    match getField config defaultFunction with
    | some (.vFunc i p) => [(.vFunc i p, args)]
    | _ => []
  match getField config userFunction with
  | some (.vFunc i p) =>
      if strictEqFalse (ret i) then [(.vFunc i p, args)]
      else (.vFunc i p, args) :: defaultCall
  | _ => defaultCall

/-- A handler slot as the library populates it: absent, falsy, or an
actual function value. -/
def isHandlerSlot : Option JsValue → Bool
  | none => true
  | some (.vFunc _ _) => true
  | some v => !jsTruthy v

/-- The correct `executeHandlers_` versions implement the claim's
handler-resolution rule for every configuration whose default slot holds a
function or nothing (as the library always arranges). -/
theorem executeHandlersV1_matches_rule (ret : Nat → JsValue)
    (config : JsFields) (u d : String) (args : JsValue)
    (hd : isHandlerSlot (getField config d) = true) :
    executeHandlersV1 ret config u d args
      = handlerResolutionRule ret config u d args := by
  unfold executeHandlersV1 handlerResolutionRule
  rcases hu : getField config u with _ | uv
  · rcases hdv : getField config d with _ | dv
    · rfl
    · rcases dv <;> simp_all [isHandlerSlot, getType, jsTruthy]
  · rcases hdv : getField config d with _ | dv
    · rcases uv <;> simp [getType, jsTruthy, retOf]
    · rcases dv <;> rcases uv <;>
        simp_all [isHandlerSlot, getType, jsTruthy, retOf] <;>
        (try (split_ifs <;> simp_all))

/-- C1: in the `gadash.Query.prototype.executeHandlers` version
(src/src/query.js lines 342-356) the claim fails because of the
`defaultfunc` typo: with a user `onRequest` handler returning `undefined`
and a default `onRequestDefault` present, the code invokes the user
handler and then throws `ReferenceError: defaultfunc is not defined`,
whereas the claimed (and documented) rule would invoke the user handler
followed by the default handler.  The sibling `executeHandlers_` versions
behave as claimed (`executeHandlersV1_matches_rule`). -/
theorem executeHandlers_defaultfunc_typo :
    executeHandlersV2 (fun _ => .vUndefined)
        (.cons "onRequest" (.vFunc 0 .nil)
          (.cons "onRequestDefault" (.vFunc 1 .nil) .nil))
        "onRequest" "onRequestDefault" .vUndefined
      = ([(.vFunc 0 .nil, .vUndefined)],
          some "ReferenceError: defaultfunc is not defined") ∧
    executeHandlersV1 (fun _ => .vUndefined)
        (.cons "onRequest" (.vFunc 0 .nil)
          (.cons "onRequestDefault" (.vFunc 1 .nil) .nil))
        "onRequest" "onRequestDefault" .vUndefined
      = [(.vFunc 0 .nil, .vUndefined), (.vFunc 1 .nil, .vUndefined)] :=
  ⟨rfl, rfl⟩

/-! ## Incremental callback (gadash.getIncrementalCallback,
src/src/util.js lines 359-368) -/

/-- Number of times `finalCallback` has run after the closure returned by
`gadash.getIncrementalCallback(numberOfCallbacks, finalCallback)` has
itself been invoked `k` times: each invocation increments `callbackCount`
and runs `finalCallback` when `callbackCount >= numberOfCallbacks`. -/
def incrementalCallbackFires (numberOfCallbacks : Nat) : Nat → Nat
  | 0 => 0
  | k + 1 =>
      incrementalCallbackFires numberOfCallbacks k +
        (if numberOfCallbacks ≤ k + 1 then 1 else 0)

/-- C5: for every positive `numberOfCallbacks` n, the counting callback
does not run `finalCallback` during its first n-1 invocations, and the
n-th invocation runs `finalCallback` exactly once (the mechanism by which
`gadash.util.loadJs_` fires its final callback once both remote scripts
have loaded). -/
theorem getIncrementalCallback_fires_at_n (n : Nat) (hn : 0 < n) :
    (∀ k, k < n → incrementalCallbackFires n k = 0) ∧
    incrementalCallbackFires n n = 1 := by
  have hzero : ∀ k, k < n → incrementalCallbackFires n k = 0 := by
    intro k
    induction k with
    | zero => intro _; rfl
    | succ m ih =>
        intro h
        have h1 : m < n := by omega
        have h2 : ¬ n ≤ m + 1 := by omega
        simp [incrementalCallbackFires, ih h1, h2]
  refine ⟨hzero, ?_⟩
  cases n with
  | zero => omega
  | succ m =>
      simp [incrementalCallbackFires, hzero m (Nat.lt_succ_self m)]

/-- Witness for `getIncrementalCallback_fires_at_n` at n = 2: no firing
after the first invocation, one firing after the second. -/
theorem getIncrementalCallback_fires_at_n_witness :
    incrementalCallbackFires 2 1 = 0 ∧ incrementalCallbackFires 2 2 = 1 :=
  ⟨(getIncrementalCallback_fires_at_n 2 (by decide)).1 1 (by decide),
    (getIncrementalCallback_fires_at_n 2 (by decide)).2⟩

/-! ## HTML escaping (gadash.util.htmlEscape, src/src/util.js 270-289) -/

/-- Global single-character replacement, the effect of
`str.replace(/c/g, rep)` for a one-character pattern. -/
def replaceChar (c : Char) (rep : List Char) : List Char → List Char
  | [] => []
  | x :: xs =>
      if x == c then rep ++ replaceChar c rep xs
      else x :: replaceChar c rep xs

/-- The character class of the guard regex `/[&<>\"]/`. -/
def isHtmlSpecial (x : Char) : Bool :=
  x == '&' || x == '<' || x == '>' || x == '"'

/-- Embedding of `gadash.util.htmlEscape` (src/src/util.js lines 270-289):
returns the string unchanged when the guard regex finds none of the four
characters; otherwise performs the four guarded global replacements in
source order, ampersand first. -/
def htmlEscape (s : List Char) : List Char :=
  if s.any isHtmlSpecial = false then s
  else
    let s1 := if s.contains '&' then replaceChar '&' ("&amp;".toList) s else s
    let s2 := if s1.contains '<' then replaceChar '<' ("&lt;".toList) s1 else s1
    let s3 := if s2.contains '>' then replaceChar '>' ("&gt;".toList) s2 else s2
    if s3.contains '"' then replaceChar '"' ("&quot;".toList) s3 else s3

/-- Modelled from the claim's words: unconditionally replace every `&`
first, then every `<`, `>` and `"`. -/
def htmlEscapeRule (s : List Char) : List Char :=
  replaceChar '"' ("&quot;".toList)
    (replaceChar '>' ("&gt;".toList)
      (replaceChar '<' ("&lt;".toList)
        (replaceChar '&' ("&amp;".toList) s)))

theorem replaceChar_of_not_contains : ∀ (s : List Char) (c : Char)
    (rep : List Char), s.contains c = false → replaceChar c rep s = s
  | [], _, _, _ => rfl
  | x :: xs, c, rep, h => by
      rw [List.contains_cons] at h
      by_cases hx : c = x
      · subst hx; simp at h
      · have hcx : (c == x) = false := beq_eq_false_iff_ne.mpr hx
        have hbx : (x == c) = false := beq_eq_false_iff_ne.mpr (Ne.symm hx)
        rw [hcx] at h
        simp only [Bool.false_or] at h
        simp [replaceChar, hbx, replaceChar_of_not_contains xs c rep h]

theorem contains_eq_false_of_not_any (s : List Char) (c : Char)
    (hc : isHtmlSpecial c = true) (h : s.any isHtmlSpecial = false) :
    s.contains c = false := by
  induction s with
  | nil => rfl
  | cons x xs ih =>
      rw [List.any_cons] at h
      cases hsx : isHtmlSpecial x with
      | true => rw [hsx] at h; simp at h
      | false =>
          rw [hsx] at h
          simp only [Bool.false_or] at h
          rw [List.contains_cons]
          by_cases hx : c = x
          · rw [hx] at hc
            rw [hc] at hsx
            exact absurd hsx (by simp)
          · have hcx : (c == x) = false := beq_eq_false_iff_ne.mpr hx
            rw [hcx, Bool.false_or]
            exact ih h

/-- C9: `gadash.util.htmlEscape` equals the claim's description —
`&` is globally replaced by the amp entity before `<`, `>` and `"` are
replaced by theirs — and a string containing none of the four characters
is returned unchanged. -/
theorem htmlEscape_spec (s : List Char) :
    htmlEscape s = htmlEscapeRule s ∧
    (s.any isHtmlSpecial = false → htmlEscape s = s) := by
  constructor
  · by_cases hany : s.any isHtmlSpecial = false
    · have h1 := contains_eq_false_of_not_any s '&' (by decide) hany
      have e1 := replaceChar_of_not_contains s '&' ("&amp;".toList) h1
      have h2 := contains_eq_false_of_not_any s '<' (by decide) hany
      have e2 := replaceChar_of_not_contains s '<' ("&lt;".toList) h2
      have h3 := contains_eq_false_of_not_any s '>' (by decide) hany
      have e3 := replaceChar_of_not_contains s '>' ("&gt;".toList) h3
      have h4 := contains_eq_false_of_not_any s '"' (by decide) hany
      have e4 := replaceChar_of_not_contains s '"' ("&quot;".toList) h4
      rw [htmlEscape, if_pos hany, htmlEscapeRule, e1, e2, e3, e4]
    · have guard : ∀ (t : List Char) (c : Char) (rep : List Char),
          (if t.contains c then replaceChar c rep t else t) = replaceChar c rep t := by
        intro t c rep
        cases h : t.contains c
        · rw [if_neg (by simp [h]), replaceChar_of_not_contains t c rep h]
        · rw [if_pos (by simp [h])]
      rw [htmlEscape, if_neg hany, htmlEscapeRule]
      rw [guard, guard, guard, guard]
  · intro h
    rw [htmlEscape, if_pos h]

/-- Witness for `htmlEscape_spec` on the concrete string `a<b`: the code
and the claim's rule agree, and the escape of the safe string `abc` is
`abc` itself. -/
theorem htmlEscape_spec_witness :
    htmlEscape ("a<b".toList) = htmlEscapeRule ("a<b".toList) ∧
    htmlEscape ("abc".toList) = "abc".toList :=
  ⟨(htmlEscape_spec ("a<b".toList)).1,
    (htmlEscape_spec ("abc".toList)).2 (by decide)⟩

/-! ## Deferred command queue (gadash.CoreQuery.prototype.render,
gadash.handleAuthorized, gadash.executeCommandQueue in src/src/core.js;
the underscore-named variants in src/src/auth.js and src/unnamed/part_001
are identical) -/

/-- Global library state relevant to deferral: the `gadash.isLoaded` flag,
the `gadash.commandQueue` array of deferred bound render functions
(identified here by query id), and the log of executed render functions in
execution order. -/
structure LoadState where
  isLoaded : Bool
  commandQueue : List Nat
  executed : List Nat

/-- Embedding of `gadash.CoreQuery.prototype.render` (src/src/core.js
lines 90-101; `Query.execute` and `Chart.render` are the same shape): when
`gadash.isLoaded` is set the bound render function runs immediately,
otherwise it is pushed onto `gadash.commandQueue`. -/
def render (s : LoadState) (q : Nat) : LoadState :=
  if s.isLoaded then { s with executed := s.executed ++ [q] }
  else { s with commandQueue := s.commandQueue ++ [q] }

/-- Embedding of `gadash.executeCommandQueue` (src/src/core.js lines
397-401): runs every function on the queue in order.  Queue entries are
bound functions, hence truthy, so the `command = commandQueue[i]` loop
never stops early. -/
def executeCommandQueue (s : LoadState) : LoadState :=
  { s with executed := s.executed ++ s.commandQueue }

/-- Embedding of `gadash.handleAuthorized` (src/src/core.js lines 348-364)
restricted to its queue effect: sets `gadash.isLoaded = true` and then
runs the command queue (its DOM status updates are modelled separately for
C9 and are irrelevant here).  Per its doc comment it runs exactly once. -/
def handleAuthorized (s : LoadState) : LoadState :=
  executeCommandQueue { s with isLoaded := true }

/-- A step of the client page: either a render/execute call on some query
or the single authorization event that flips the loaded flag. -/
inductive LoadEvent where
  | render (q : Nat)
  | authorize

/-- Run a sequence of page events from a state. -/
def runEvents (s : LoadState) : List LoadEvent → LoadState
  | [] => s
  | e :: es =>
      runEvents (match e with
        | .render q => render s q
        | .authorize => handleAuthorized s) es

/-- The state before any script has loaded. -/
def initialLoadState : LoadState := ⟨false, [], []⟩

theorem runEvents_append (s : LoadState) (xs ys : List LoadEvent) :
    runEvents s (xs ++ ys) = runEvents (runEvents s xs) ys := by
  induction xs generalizing s with
  | nil => rfl
  | cons e es ih => simp [runEvents, ih]

theorem runEvents_renders_not_loaded (s : LoadState) (qs : List Nat)
    (h : s.isLoaded = false) :
    runEvents s (qs.map LoadEvent.render)
      = { s with commandQueue := s.commandQueue ++ qs } := by
  induction qs generalizing s with
  | nil => simp [runEvents]
  | cons q rest ih => simp [runEvents, render, h, ih, List.append_assoc]

theorem runEvents_renders_loaded (s : LoadState) (qs : List Nat)
    (h : s.isLoaded = true) :
    runEvents s (qs.map LoadEvent.render)
      = { s with executed := s.executed ++ qs } := by
  induction qs generalizing s with
  | nil => simp [runEvents]
  | cons q rest ih => simp [runEvents, render, h, ih, List.append_assoc]

/-- C3: render/execute calls made while `gadash.isLoaded` is false are
appended to the command queue in call order and none of them runs yet;
when `gadash.handleAuthorized` flips the flag, every queued function runs
exactly once, in exactly insertion order; and calls made afterwards run
immediately without being queued. -/
theorem commandQueue_execution_order (qs rs : List Nat) :
    (runEvents initialLoadState (qs.map LoadEvent.render)).executed = [] ∧
    (runEvents initialLoadState (qs.map LoadEvent.render)).commandQueue = qs ∧
    (runEvents initialLoadState
        (qs.map LoadEvent.render ++ LoadEvent.authorize :: rs.map LoadEvent.render)).executed
      = qs ++ rs ∧
    (runEvents initialLoadState
        (qs.map LoadEvent.render ++ LoadEvent.authorize :: rs.map LoadEvent.render)).commandQueue
      = qs := by
  have hq := runEvents_renders_not_loaded initialLoadState qs rfl
  have hfull : runEvents initialLoadState
      (qs.map LoadEvent.render ++ LoadEvent.authorize :: rs.map LoadEvent.render)
      = runEvents (handleAuthorized { initialLoadState with commandQueue := qs })
          (rs.map LoadEvent.render) := by
    rw [runEvents_append, hq]
    simp [initialLoadState, runEvents]
  refine ⟨by rw [hq]; simp [initialLoadState],
    by rw [hq]; simp [initialLoadState], ?_, ?_⟩
  · rw [hfull, handleAuthorized, executeCommandQueue,
      runEvents_renders_loaded _ rs rfl]
    simp [initialLoadState]
  · rw [hfull, handleAuthorized, executeCommandQueue,
      runEvents_renders_loaded _ rs rfl]

/-! ## Dashboard (gadash.Dashboard, src/src/dashboard.js) -/

/-- An object handed to `Dashboard.add`, described by which interface
methods it exposes (truthy duck-typing checks in the source) and the
config object its `getConfig` method would return. -/
structure DashItem where
  hasGetConfig : Bool
  hasGetValue : Bool
  hasSetConfig : Bool
  hasExecute : Bool
  itemConfig : JsFields

/-- Embedding of the `gadash.Dashboard` instance state: the `controls_`
and `charts_` arrays initialised empty by the constructor
(src/src/dashboard.js lines 45-49). -/
structure Dashboard where
  controls : List DashItem
  charts : List DashItem

/-- The freshly constructed dashboard: `new gadash.Dashboard()`. -/
def newDashboard : Dashboard := ⟨[], []⟩

/-- Embedding of the non-array branch of `gadash.Dashboard.prototype.add`
(src/src/dashboard.js lines 65-81): an object satisfying
`getConfig && getValue` (a Control) is pushed onto `charts_`, an object
satisfying `setConfig && execute` (a Query) is also pushed onto
`charts_`, anything else is ignored. -/
def dashboardAddOne (d : Dashboard) (it : DashItem) : Dashboard :=
  if it.hasGetConfig && it.hasGetValue then
    { d with charts := d.charts ++ [it] }
  else if it.hasSetConfig && it.hasExecute then
    { d with charts := d.charts ++ [it] }
  else d

/-- Argument of a single `add` call: one object or an array of objects
(array entries are objects, hence truthy, so the `obj = object[i]` loop
visits all of them). -/
inductive AddArg where
  | single (it : DashItem)
  | multiple (its : List DashItem)

/-- Embedding of `gadash.Dashboard.prototype.add`. -/
def dashboardAdd (d : Dashboard) : AddArg → Dashboard
  | .single it => dashboardAddOne d it
  | .multiple its => its.foldl dashboardAddOne d

/-- Embedding of `gadash.Dashboard.prototype.getConfig`
(src/src/dashboard.js lines 97-103): folds `gadash.util.extend` of each
control's config over `controls_` into a fresh object. -/
def dashboardGetConfig (d : Dashboard) : JsFields :=
  d.controls.foldl (fun acc c => extend c.itemConfig acc) .nil

theorem dashboardAddOne_controls (d : Dashboard) (it : DashItem) :
    (dashboardAddOne d it).controls = d.controls := by
  unfold dashboardAddOne
  split_ifs <;> rfl

theorem dashboardAdd_controls (d : Dashboard) (a : AddArg) :
    (dashboardAdd d a).controls = d.controls := by
  cases a with
  | single it => exact dashboardAddOne_controls d it
  | multiple its =>
      induction its generalizing d with
      | nil => rfl
      | cons it rest ih =>
          simp [dashboardAdd, List.foldl_cons] at ih ⊢
          rw [ih, dashboardAddOne_controls]

/-- C8: whatever sequence of `add` calls a dashboard receives — single
objects or arrays, Control-shaped or Query-shaped — the `controls_` array
stays empty (every accepted object is pushed onto `charts_`), and
consequently `getConfig` always returns the empty object. -/
theorem dashboard_controls_empty (argsList : List AddArg) :
    (argsList.foldl dashboardAdd newDashboard).controls = [] ∧
    dashboardGetConfig (argsList.foldl dashboardAdd newDashboard)
      = .nil := by
  have h : ∀ (d : Dashboard) (l : List AddArg),
      (l.foldl dashboardAdd d).controls = d.controls := by
    intro d l
    induction l generalizing d with
    | nil => rfl
    | cons a rest ih => rw [List.foldl_cons, ih, dashboardAdd_controls]
  refine ⟨h newDashboard argsList, ?_⟩
  rw [dashboardGetConfig, h newDashboard argsList]
  rfl

/-! ## Date formatting (gadash.util.lastNdays, src/src/util.js 132-150) -/

/-- Decimal digits of `n`, most significant first: the model of JavaScript
number-to-string conversion for the nonnegative integers produced by
`getFullYear`/`getMonth`/`getDate`.  The first argument is recursion fuel;
`decimalChars` supplies enough. -/
def decimalCharsAux : Nat → Nat → List Char
  | 0, _ => []
  | fuel + 1, n =>
      if n < 10 then [Nat.digitChar n]
      else decimalCharsAux fuel (n / 10) ++ [Nat.digitChar (n % 10)]

/-- Decimal digit string of `n`. -/
def decimalChars (n : Nat) : List Char := decimalCharsAux (n + 1) n

theorem decimalCharsAux_fuel : ∀ (f g n : Nat), n < f → n < g →
    decimalCharsAux f n = decimalCharsAux g n
  | 0, _, n, hf, _ => absurd hf (Nat.not_lt_zero n)
  | _ + 1, 0, n, _, hg => absurd hg (Nat.not_lt_zero n)
  | f + 1, g + 1, n, hf, hg => by
      by_cases h : n < 10
      · simp [decimalCharsAux, h]
      · have hd : n / 10 < n := Nat.div_lt_self (by omega) (by omega)
        simp only [decimalCharsAux, h, if_false]
        rw [decimalCharsAux_fuel f g (n / 10) (by omega) (by omega)]

/-- One unfolding step of `decimalChars`. -/
theorem decimalChars_step (n : Nat) :
    decimalChars n = if n < 10 then [Nat.digitChar n]
      else decimalChars (n / 10) ++ [Nat.digitChar (n % 10)] := by
  by_cases h : n < 10
  · simp [decimalChars, decimalCharsAux, h]
  · have hd : n / 10 < n := Nat.div_lt_self (by omega) (by omega)
    rw [if_neg h]
    have h1 : decimalCharsAux (n + 1) n
        = decimalCharsAux n (n / 10) ++ [Nat.digitChar (n % 10)] := by
      simp [decimalCharsAux, h]
    rw [decimalChars, decimalChars, h1,
      decimalCharsAux_fuel n (n / 10 + 1) (n / 10) hd (Nat.lt_succ_self _)]

theorem decimalChars_length_one (n : Nat) (h : n < 10) :
    (decimalChars n).length = 1 := by
  rw [decimalChars_step, if_pos h]
  rfl

theorem decimalChars_length_two (n : Nat) (h1 : 10 ≤ n) (h2 : n ≤ 99) :
    (decimalChars n).length = 2 := by
  rw [decimalChars_step, if_neg (by omega)]
  simp [decimalChars_length_one (n / 10) (by omega)]

theorem decimalChars_length_three (n : Nat) (h1 : 100 ≤ n) (h2 : n ≤ 999) :
    (decimalChars n).length = 3 := by
  rw [decimalChars_step, if_neg (by omega)]
  simp [decimalChars_length_two (n / 10) (by omega) (by omega)]

theorem decimalChars_length_four (n : Nat) (h1 : 1000 ≤ n) (h2 : n ≤ 9999) :
    (decimalChars n).length = 4 := by
  rw [decimalChars_step, if_neg (by omega)]
  simp [decimalChars_length_three (n / 10) (by omega) (by omega)]

/-- The `if (x < 10) x = '0' + x;` zero padding applied to month and day
in `gadash.util.lastNdays`. -/
def padTwo (n : Nat) : List Char :=
  if n < 10 then '0' :: decimalChars n else decimalChars n

theorem padTwo_length (n : Nat) (h : n ≤ 99) : (padTwo n).length = 2 := by
  unfold padTwo
  by_cases h10 : n < 10
  · simp [h10, decimalChars_length_one n h10]
  · simp [h10, decimalChars_length_two n (by omega) h]

/-- Day-of-era within a 400-year Gregorian era, for a day number `g`
counted from 0000-03-01 (proleptic Gregorian, the calendar JavaScript
`Date` extrapolates).  The standard era-based civil-from-days algorithm
follows. -/
def doeOf (g : Nat) : Nat := g % 146097

/-- Year-of-era (0..399) of day number `g`. -/
def yoeOf (g : Nat) : Nat :=
  ((doeOf g + doeOf g / 36524) - (doeOf g / 1460 + doeOf g / 146096)) / 365

/-- Day-of-year (0-based, March-first year) of day number `g`. -/
def doyOf (g : Nat) : Nat :=
  doeOf g - (365 * yoeOf g + yoeOf g / 4 - yoeOf g / 100)

/-- March-based month index (0 = March) of day number `g`. -/
def mpOf (g : Nat) : Nat := (5 * doyOf g + 2) / 153

/-- Day of month (1..31) of day number `g`: `Date.prototype.getDate`. -/
def dayOf (g : Nat) : Nat := doyOf g - (153 * mpOf g + 2) / 5 + 1

/-- Calendar month (1..12) of day number `g`: `getMonth() + 1`. -/
def monthOf (g : Nat) : Nat :=
  if mpOf g < 10 then mpOf g + 3 else mpOf g - 9

/-- Calendar year of day number `g`: `Date.prototype.getFullYear`. -/
def yearOf (g : Nat) : Nat :=
  yoeOf g + (g / 146097) * 400 + (if monthOf g ≤ 2 then 1 else 0)

/-- Inverse conversion (day number since 0000-03-01 of a calendar date),
used to name concrete `today` values. -/
def daysOfCivil (y m d : Nat) : Nat :=
  let yAdj := if m ≤ 2 then y - 1 else y
  let mp := if m ≤ 2 then m + 9 else m - 3
  365 * yAdj + yAdj / 4 - yAdj / 100 + yAdj / 400 + (153 * mp + 2) / 5 + d - 1

/-- The month and day components always lie in the calendar ranges 1..12
and 1..31. -/
theorem month_day_bounds (g : Nat) :
    1 ≤ monthOf g ∧ monthOf g ≤ 12 ∧ 1 ≤ dayOf g ∧ dayOf g ≤ 31 := by
  unfold monthOf dayOf mpOf doyOf yoeOf doeOf
  split_ifs <;> omega

/-- Embedding of `gadash.util.lastNdays(n)` (src/src/util.js lines
132-150) with `today` passed explicitly as a day number:
`before.setDate(today.getDate() - n)` moves today back `n` calendar days
(JavaScript `Date` normalises out-of-range day-of-month values), and the
result is `[year, month, day].join('-')` with `getFullYear()` converted
to decimal digits and month and day zero-padded to two characters. -/
def lastNdaysChars (n : Nat) (today : Nat) : List Char :=
  decimalChars (yearOf (today - n)) ++
    '-' :: (padTwo (monthOf (today - n)) ++
      '-' :: padTwo (dayOf (today - n)))

/-- `gadash.util.lastNdays` as a string, as consumed by
`setDefaultDates`. -/
def lastNdays (n : Nat) (today : Nat) : String :=
  String.mk (lastNdaysChars n today)

/-- C10 (amended): for every `n` whose target date (`n` days before
today) falls in the years 1000..9999 — every realistic input —
`gadash.util.lastNdays(n)` is exactly `yyyy-MM-dd`: a four-digit year and
zero-padded two-digit month and day, 10 characters with hyphens at
positions 5 and 8 (1-based).  For target dates before the year 1000 the
year keeps its natural width, so the string is shorter than 10 characters
(see the counterexample). -/
theorem lastNdays_format (today n : Nat)
    (hy1 : 1000 ≤ yearOf (today - n)) (hy2 : yearOf (today - n) ≤ 9999) :
    (lastNdaysChars n today).length = 10 ∧
    (lastNdaysChars n today)[4]? = some '-' ∧
    (lastNdaysChars n today)[7]? = some '-' ∧
    (decimalChars (yearOf (today - n))).length = 4 ∧
    (padTwo (monthOf (today - n))).length = 2 ∧
    (padTwo (dayOf (today - n))).length = 2 := by
  obtain ⟨hm1, hm2, hd1, hd2⟩ := month_day_bounds (today - n)
  have hY := decimalChars_length_four _ hy1 hy2
  have hM := padTwo_length (monthOf (today - n)) (by omega)
  have hD := padTwo_length (dayOf (today - n)) (by omega)
  obtain ⟨ma, mb, hMab⟩ := List.length_eq_two.mp hM
  refine ⟨?_, ?_, ?_, hY, hM, hD⟩
  · simp [lastNdaysChars, hY, hM, hD]
  · rw [lastNdaysChars, List.getElem?_append_right (by omega), hY]
    simp
  · rw [lastNdaysChars, List.getElem?_append_right (by omega), hY, hMab]
    simp

/-- C10 counterexample: from today = 2026-10-12, `lastNdays(400000)`
lands on 0931-08-14 and JavaScript renders the year as `931`, so the
result is the 9-character string `931-08-14` — not 10 characters, and
without a four-digit year. -/
theorem lastNdays_format_counterexample :
    (lastNdaysChars 400000 (daysOfCivil 2026 10 12)).length ≠ 10 ∧
    (lastNdaysChars 400000 (daysOfCivil 2026 10 12)).length = 9 := by
  exact ⟨by decide, by decide⟩

/-- Witness for `lastNdays_format`: today = 2026-10-12 and n = 28 give a
10-character `yyyy-MM-dd` string with hyphens in place. -/
theorem lastNdays_format_witness :
    (lastNdaysChars 28 (daysOfCivil 2026 10 12)).length = 10 ∧
    (lastNdaysChars 28 (daysOfCivil 2026 10 12))[4]? = some '-' ∧
    (lastNdaysChars 28 (daysOfCivil 2026 10 12))[7]? = some '-' := by
  have h := lastNdays_format (daysOfCivil 2026 10 12) 28 (by decide) (by decide)
  exact ⟨h.1, h.2.1, h.2.2.1⟩

/-! ## CoreQuery configuration, date defaulting and response callback
(src/src/core.js) -/

/-- The `config.query` sub-object of a CoreQuery configuration:
`'start-date'` and `'end-date'` (`none` = key absent), with the remaining
query parameters (ids, metrics, dimensions, ...) opaque, as the embedded
code never reads them. -/
structure QueryParams where
  startDate : Option String
  endDate : Option String
  restTag : Nat

/-- A CoreQuery configuration object: `'last-n-days'` (a day count),
the nested query object, and the optional `onSuccess`/`onError` handler
functions (identified by id; `none` = key absent). -/
structure CoreConfig where
  lastNDays : Option Nat
  query : QueryParams
  onSuccess : Option Nat
  onError : Option Nat

/-- JS truthiness of an optional number: absent or `0` is falsy. -/
def optNatTruthy : Option Nat → Bool
  | some n => n != 0
  | none => false

/-- JS truthiness of an optional string: absent or `''` is falsy. -/
def optStrTruthy : Option String → Bool
  | some s => s != ""
  | none => false

/-- Embedding of `gadash.CoreQuery.prototype.setDefaultDates`
(src/src/core.js lines 126-138; `gadash.core.setDefaultDates`,
src/unnamed/part_003 lines 85-97, is the same function when called — as it
always is — with the instance's own config): a truthy `'last-n-days'`
rewrites both dates; otherwise, if either date is missing, both receive
the default 28-day range; otherwise the config is untouched. -/
def setDefaultDates (today : Nat) (config : CoreConfig) : CoreConfig :=
  if optNatTruthy config.lastNDays then
    { config with query := { config.query with
        endDate := some (lastNdays 0 today),
        startDate := some (lastNdays (config.lastNDays.getD 0) today) } }
  else if !optStrTruthy config.query.startDate
      || !optStrTruthy config.query.endDate then
    { config with query := { config.query with
        endDate := some (lastNdays 0 today),
        startDate := some (lastNdays 28 today) } }
  else config

/-- C2 (amended): `setDefaultDates` behaves as claimed on the all-or-none
cases — truthy `'last-n-days'` sets end = today and start = today minus
that many days; with no `'last-n-days'` and both dates already set
(non-empty) nothing changes; with no `'last-n-days'` and neither date set
both default to the last 28 days — but when exactly one of the two dates
is set the code also overwrites both with the 28-day default, rather than
leaving the already-set date unchanged. -/
theorem setDefaultDates_spec (today : Nat) (c : CoreConfig) :
    (optNatTruthy c.lastNDays = true →
      setDefaultDates today c = { c with query := { c.query with
        endDate := some (lastNdays 0 today),
        startDate := some (lastNdays (c.lastNDays.getD 0) today) } }) ∧
    (optNatTruthy c.lastNDays = false →
      optStrTruthy c.query.startDate = true →
      optStrTruthy c.query.endDate = true →
      setDefaultDates today c = c) ∧
    (optNatTruthy c.lastNDays = false →
      (optStrTruthy c.query.startDate && optStrTruthy c.query.endDate) = false →
      setDefaultDates today c = { c with query := { c.query with
        endDate := some (lastNdays 0 today),
        startDate := some (lastNdays 28 today) } }) := by
  refine ⟨fun h1 => ?_, fun h1 h2 h3 => ?_, fun h1 h23 => ?_⟩
  · rw [setDefaultDates, if_pos h1]
  · rw [setDefaultDates, if_neg (by simp [h1]),
      if_neg (by simp [h2, h3])]
  · rw [setDefaultDates, if_neg (by simp [h1]), if_pos ?_]
    rcases Bool.and_eq_false_iff.mp h23 with h | h <;> simp [h]

/-- C2 counterexample: a config with `'start-date'` set to `2012-01-01`,
no `'end-date'` and no `'last-n-days'`: the claim says the already-set
start date stays unchanged, but the code overwrites it with the default
28-days-ago date. -/
theorem setDefaultDates_counterexample :
    (setDefaultDates (daysOfCivil 2026 10 12)
        { lastNDays := none,
          query := { startDate := some "2012-01-01", endDate := none,
                     restTag := 0 },
          onSuccess := none, onError := none }).query.startDate
      ≠ some "2012-01-01" := by
  decide

/-- Witness for `setDefaultDates_spec`: a config with both dates set and
no `'last-n-days'` is returned unchanged. -/
theorem setDefaultDates_spec_witness :
    setDefaultDates (daysOfCivil 2026 10 12)
        { lastNDays := none,
          query := { startDate := some "2012-01-01",
                     endDate := some "2012-02-01", restTag := 0 },
          onSuccess := none, onError := none }
      = { lastNDays := none,
          query := { startDate := some "2012-01-01",
                     endDate := some "2012-02-01", restTag := 0 },
          onSuccess := none, onError := none } :=
  (setDefaultDates_spec (daysOfCivil 2026 10 12)
      { lastNDays := none,
        query := { startDate := some "2012-01-01",
                   endDate := some "2012-02-01", restTag := 0 },
        onSuccess := none, onError := none }).2.1 rfl rfl rfl

/-- An error object of a Core Reporting API response. -/
structure ApiError where
  code : Nat
  message : String

/-- A Core Reporting API JSON response: an optional `error` field (an
object, hence truthy whenever present) and the rest of the payload,
opaque. -/
structure ApiResponse where
  error : Option ApiError
  tag : Nat

/-- An observable action of the response path: a user error handler call,
the DOM append to the `errors` div, a user success handler call, the
default success callback, or an API request issued via
`gapi.client.analytics.data.ga.get(...).execute(...)`. -/
inductive CbAction where
  | callOnError (handler : Nat) (message : String)
  | appendErrorDiv (message : String)
  | callOnSuccess (handler : Nat) (response : ApiResponse)
  | callDefaultOnSuccess (response : ApiResponse)
  | apiRequest (query : QueryParams)

/-- Embedding of `gadash.CoreQuery.prototype.defaultOnError`
(src/src/core.js lines 172-196): with a user `onError` configured, it is
called with the message; otherwise the message is appended to the div
with id `errors`, which is created (with heading `ERRORS:<br />`) when
absent.  The second component is the new innerHTML of that div (`none` =
the element does not exist). -/
def defaultOnError (config : CoreConfig) (errorsDiv : Option String)
    (message : String) : List CbAction × Option String :=
  match config.onError with
  | some f => ([.callOnError f message], errorsDiv)
  | none =>
      let base := match errorsDiv with
        | none => "ERRORS:<br />"
        | some content => content
      ([.appendErrorDiv message],
        some (base ++ " error: " ++ message ++ "<br />"))

/-- Embedding of `gadash.CoreQuery.prototype.callback` (src/src/core.js
lines 151-162): an error response goes to `defaultOnError` with the
message `error.code + ' ' + error.message`; a non-error response goes to
the configured `onSuccess` or, failing that, to `defaultOnSuccess`. -/
def callback (config : CoreConfig) (errorsDiv : Option String)
    (response : ApiResponse) : List CbAction × Option String :=
  match response.error with
  | some e =>
      defaultOnError config errorsDiv (Nat.repr e.code ++ " " ++ e.message)
  | none =>
      match config.onSuccess with
      | some f => ([.callOnSuccess f response], errorsDiv)
      | none => ([.callDefaultOnSuccess response], errorsDiv)

/-- Error-side actions of the callback. -/
def isErrorAction : CbAction → Bool
  | .callOnError _ _ => true
  | .appendErrorDiv _ => true
  | _ => false

/-- Success-side actions of the callback. -/
def isSuccessAction : CbAction → Bool
  | .callOnSuccess _ _ => true
  | .callDefaultOnSuccess _ => true
  | _ => false

/-- C4: every response triggers exactly one handler action, which is an
error-side action exactly when the response carries an `error` field.  On
error, a configured `onError` receives the error text and the DOM is
untouched; without one the error text is appended to the `errors` div,
created if absent.  On success the full response goes to the configured
`onSuccess`, or else to the default success callback, with the DOM
untouched. -/
theorem callback_error_dispatch (config : CoreConfig)
    (dom : Option String) (r : ApiResponse) :
    ((callback config dom r).1.length = 1) ∧
    (∀ a ∈ (callback config dom r).1,
      isErrorAction a = r.error.isSome ∧ isSuccessAction a = r.error.isNone) ∧
    (∀ e, r.error = some e →
      (∀ f, config.onError = some f →
        callback config dom r
          = ([.callOnError f (Nat.repr e.code ++ " " ++ e.message)], dom)) ∧
      (config.onError = none →
        callback config dom r
          = ([.appendErrorDiv (Nat.repr e.code ++ " " ++ e.message)],
              some ((match dom with
                  | none => "ERRORS:<br />"
                  | some content => content)
                ++ " error: " ++ (Nat.repr e.code ++ " " ++ e.message)
                ++ "<br />")))) ∧
    (r.error = none →
      (∀ f, config.onSuccess = some f →
        callback config dom r = ([.callOnSuccess f r], dom)) ∧
      (config.onSuccess = none →
        callback config dom r = ([.callDefaultOnSuccess r], dom))) := by
  rcases hr : r.error with _ | e
  · rcases hs : config.onSuccess with _ | f <;>
      simp [callback, hr, hs, isErrorAction, isSuccessAction]
  · rcases ho : config.onError with _ | f <;>
      simp [callback, defaultOnError, hr, ho, isErrorAction, isSuccessAction]

/-- Witness for `callback_error_dispatch`: an error response with no
`onError` handler appends the formatted message to a freshly created
errors div. -/
theorem callback_error_dispatch_witness :
    callback
        { lastNDays := none,
          query := { startDate := none, endDate := none, restTag := 0 },
          onSuccess := none, onError := none }
        none { error := some { code := 403, message := "forbidden" }, tag := 0 }
      = ([.appendErrorDiv "403 forbidden"],
          some "ERRORS:<br /> error: 403 forbidden<br />") := by
  have h := ((callback_error_dispatch
      { lastNDays := none,
        query := { startDate := none, endDate := none, restTag := 0 },
        onSuccess := none, onError := none }
      none
      { error := some { code := 403, message := "forbidden" }, tag := 0 }).2.2.1
      { code := 403, message := "forbidden" } rfl).2 rfl
  rw [h]
  rfl

/-- Embedding of `gadash.CoreQuery.prototype.renderFunction`
(src/src/core.js lines 112-116): update the default dates on the
instance's config, then create and execute exactly one Core Reporting API
request whose callback is the bound `callback` method. -/
def renderFunctionActions (today : Nat) (config : CoreConfig) :
    List CbAction :=
  [.apiRequest (setDefaultDates today config).query]

/-- Immediate actions of `render` (src/src/core.js lines 90-101): the
request is issued at once when the libraries are loaded, otherwise the
bound render function is queued (C3) and nothing is issued yet. -/
def renderActions (loaded : Bool) (today : Nat) (config : CoreConfig) :
    List CbAction :=
  if loaded then renderFunctionActions today config else []

/-- How many API requests a list of actions issues. -/
def countApiRequests (l : List CbAction) : Nat :=
  l.countP (fun a => match a with | .apiRequest _ => true | _ => false)

/-- C7: a render call issues at most one API request (exactly one once the
libraries are loaded), and the response callback issues none — on an error
response only handler functions or DOM writes run, so a failure is
terminal for that request. -/
theorem single_request_no_retry (today : Nat) (config : CoreConfig)
    (loaded : Bool) (dom : Option String) (r : ApiResponse) :
    countApiRequests (renderFunctionActions today config) = 1 ∧
    countApiRequests (renderActions loaded today config) ≤ 1 ∧
    countApiRequests ((callback config dom r).1) = 0 := by
  refine ⟨rfl, ?_, ?_⟩
  · cases loaded <;> simp [renderActions, renderFunctionActions, countApiRequests]
  · rcases hr : r.error with _ | e
    · rcases hs : config.onSuccess with _ | f <;>
        simp [callback, hr, hs, countApiRequests]
    · rcases ho : config.onError with _ | f <;>
        simp [callback, defaultOnError, hr, ho, countApiRequests]

end GaDash
